import Mathlib

/-
Verification of the epoch-cell interior-mutability primitive
(src/src/main.rs) against its natural-language specification.

The cell owns a payload together with a u32 epoch counter.  A mutable
borrow reads the counter as its mark and bumps the counter; a read
borrow reads the counter as its mark without bumping; dereference of
either guard checks counter == mark + 1; dropping a guard rolls the
counter back to its mark exactly when counter == mark + 1.

The embedding is state-passing: the Rust value behind the raw pointer
and the counter behind the shared Cell become an explicit record that
every operation threads through.  u32 arithmetic is Nat arithmetic
taken modulo 2 ^ 32 (wrapping, exactly the width of the source
counter).  The raw pointer of a guard is represented only by the one
bit of it the code ever inspects, namely whether it is null; the
accessor methods create guards with a non-null location, mirroring
that the address of the contents of the interior-mutability cell is
never null.
-/

namespace Epoch

/-- modulus of the u32 epoch counter of the cell -/
def U32MOD : Nat := 4294967296

/-- the two failure messages of the dereference assertions plus the
defensive null-location check -/
inductive EcError where
  | staleBorrow
  | staleMutBorrow
  | nullLocation
deriving DecidableEq, Repr

/-- the cell: struct EpochCell with fields epoch (Cell of u32) and val
(the payload behind the interior-mutability cell) -/
structure EpochCell (α : Type) where
  epoch : Nat
  val : α
deriving DecidableEq, Repr

/-- a mutable guard: struct RefMut with fields ptr (kept here as the
one observable bit, nullness), the shared counter reference (implicit:
the threaded state), and mark -/
structure RefMut where
  mark : Nat
  ptrIsNull : Bool
deriving DecidableEq, Repr

/-- a read guard: struct Ref, a newtype around RefMut -/
structure Ref where
  toRefMut : RefMut
deriving DecidableEq, Repr

instance [DecidableEq ε] [DecidableEq α] : DecidableEq (Except ε α) := fun x y =>
  match x, y with
  | Except.ok a, Except.ok b => decidable_of_iff (a = b) (by simp)
  | Except.ok _, Except.error _ => Decidable.isFalse (by simp)
  | Except.error _, Except.ok _ => Decidable.isFalse (by simp)
  | Except.error e, Except.error f => decidable_of_iff (e = f) (by simp)

/-- EpochCell::new: counter 0, payload as given -/
def EpochCell.new (v : α) : EpochCell α :=
  ⟨0, v⟩

/-- EpochCell::borrow: read the counter as mark, no write back, wrap a
RefMut in Ref; the location is the cell contents, not null -/
def EpochCell.borrow (s : EpochCell α) : Ref :=
  ⟨⟨s.epoch, false⟩⟩

/-- EpochCell::borrow_mut: read the counter as mark, write mark + 1
back (u32 wrapping), return the guard stamped with the pre-bump value -/
def EpochCell.borrow_mut (s : EpochCell α) : RefMut × EpochCell α :=
  (⟨s.epoch, false⟩, ⟨(s.epoch + 1) % U32MOD, s.val⟩)

/-- EpochCell::get_mut: unique-ownership access, untracked mutation of
the payload through the returned exclusive reference -/
def EpochCell.get_mut (f : α → α) (s : EpochCell α) : EpochCell α :=
  ⟨s.epoch, f s.val⟩

/-- EpochCell::into_inner: consume the cell, yield the payload -/
def EpochCell.into_inner (s : EpochCell α) : α :=
  s.val

/-- Drop for RefMut: if the counter equals mark + 1 (u32 arithmetic)
set it back to mark, otherwise leave the cell untouched -/
def RefMut.drop (g : RefMut) (s : EpochCell α) : EpochCell α :=
  if s.epoch = (g.mark + 1) % U32MOD then ⟨g.mark, s.val⟩ else s

/-- Deref for RefMut: assert counter == mark + 1 (stale borrow
otherwise), then form a shared reference after the defensive null
check; the cell is returned untouched since the method only reads -/
def RefMut.deref (g : RefMut) (s : EpochCell α) :
    Except EcError α × EpochCell α :=
  if s.epoch = (g.mark + 1) % U32MOD then
    if g.ptrIsNull then (Except.error EcError.nullLocation, s)
    else (Except.ok s.val, s)
  else (Except.error EcError.staleBorrow, s)

/-- DerefMut for RefMut: assert counter == mark + 1 (stale mut borrow
otherwise), then form an exclusive reference after the defensive null
check; the caller writes through it, modelled by applying f to the
payload -/
def RefMut.deref_mut (g : RefMut) (f : α → α) (s : EpochCell α) :
    Except EcError Unit × EpochCell α :=
  if s.epoch = (g.mark + 1) % U32MOD then
    if g.ptrIsNull then (Except.error EcError.nullLocation, s)
    else (Except.ok (), ⟨s.epoch, f s.val⟩)
  else (Except.error EcError.staleMutBorrow, s)

/-- Deref for Ref: delegates to the deref of the wrapped RefMut -/
def Ref.deref (r : Ref) (s : EpochCell α) :
    Except EcError α × EpochCell α :=
  RefMut.deref r.toRefMut s

/-- dropping a Ref drops its RefMut field, running the conditional
rollback of Drop for RefMut (Ref has no Drop of its own) -/
def Ref.drop (r : Ref) (s : EpochCell α) : EpochCell α :=
  RefMut.drop r.toRefMut s

/-
Trace semantics for a single cell: the events a client can perform,
and the system state of one cell plus its live guards in creation
order.  Dropped guards are gone for good (the host language destroys
them), so the guard list holds exactly the live ones.
-/

/-- events of the single-cell interleaving semantics: a borrow_mut, a
borrow, a dereference of live guard number i, a release of live guard
number i -/
inductive Ev where
  | borrowMutE
  | borrowE
  | derefE (i : Nat)
  | dropE (i : Nat)
deriving DecidableEq, Repr

/-- a live guard of the trace semantics: the guard data plus whether
it came from borrow_mut (true) or borrow (false) -/
structure GuardRec where
  guard : RefMut
  isMut : Bool
deriving DecidableEq, Repr

/-- a cell together with its live guards, in creation order -/
structure Sys (α : Type) where
  cell : EpochCell α
  guards : List GuardRec
deriving DecidableEq, Repr

/-- release of live guard number i: run the drop glue of that guard on
the cell and remove it from the live list; absent indices are a no-op
(there is no such event in the host language) -/
def dropAt (s : Sys α) (i : Nat) : Sys α :=
  match s.guards[i]? with
  | none => s
  | some gr =>
    ⟨if gr.isMut then RefMut.drop gr.guard s.cell else Ref.drop ⟨gr.guard⟩ s.cell,
     s.guards.eraseIdx i⟩

/-- one step of the interleaving semantics; a dereference only reads
the counter and the payload, so it leaves the system state unchanged -/
def step (s : Sys α) : Ev → Sys α
  | Ev.borrowMutE =>
    ⟨(s.cell.borrow_mut).2, s.guards ++ [⟨(s.cell.borrow_mut).1, true⟩]⟩
  | Ev.borrowE =>
    ⟨s.cell, s.guards ++ [⟨(s.cell.borrow).toRefMut, false⟩]⟩
  | Ev.derefE _ => s
  | Ev.dropE i => dropAt s i

/-- the state reached from s by a trace of events -/
def reach (s : Sys α) (t : List Ev) : Sys α :=
  t.foldl step s

/-- the freshly constructed cell with no guards -/
def init (v : α) : Sys α :=
  ⟨EpochCell.new v, []⟩

/-- the marks of the live guards, in creation order -/
def marks (s : Sys α) : List Nat :=
  s.guards.map fun gr => gr.guard.mark

/-- number of borrow_mut events in a trace -/
def mutCount (t : List Ev) : Nat :=
  t.countP fun e => match e with | Ev.borrowMutE => true | _ => false

/-- whether a trace avoids request_read_access -/
def noReadAccess (t : List Ev) : Bool :=
  t.all fun e => match e with | Ev.borrowE => false | _ => true

/-- number of live guards whose mark + 1 equals the counter in u32
arithmetic, i.e. live guards passing the authoritativeness check that
dereference performs -/
def AuthCount (s : Sys α) : Nat :=
  s.guards.countP fun gr => (gr.guard.mark + 1) % U32MOD == s.cell.epoch

/-- the invariant of read-free traces, with b the budget of borrow_mut
events still to come: live marks strictly increase in creation order,
every live mark is below the counter, and the counter plus the budget
stays below the u32 modulus, so no increment ever wraps -/
def InvB (s : Sys α) (b : Nat) : Prop :=
  List.Pairwise (fun a b => a < b) (marks s) ∧
    (∀ m ∈ marks s, m < s.cell.epoch) ∧ s.cell.epoch + b < U32MOD

/-- the LIFO scenario of the spec: n nested borrow_mut guards; after
the inner ones have finished, each guard reads the payload through
deref, increments it through deref_mut, and is released; any failed
check aborts the run with its error -/
def lifoRun : Nat → EpochCell Nat → Except EcError (EpochCell Nat)
  | 0, s => Except.ok s
  | Nat.succ n, s =>
    match lifoRun n (s.borrow_mut).2 with
    | Except.error e => Except.error e
    | Except.ok s2 =>
      match RefMut.deref (s.borrow_mut).1 s2 with
      | (Except.error e, _) => Except.error e
      | (Except.ok _, s2a) =>
        match RefMut.deref_mut (s.borrow_mut).1 (fun x => x + 1) s2a with
        | (Except.error e, _) => Except.error e
        | (Except.ok _, s3) => Except.ok (RefMut.drop (s.borrow_mut).1 s3)

/-
Helper lemmas.
-/

/-- the u32 successor of a counter value never equals the value itself -/
theorem succ_mod_ne (x : Nat) : (x + 1) % U32MOD ≠ x := by
  simp only [U32MOD]
  omega

/-- mapping commutes with removal of the element at an index -/
theorem map_eraseIdx (f : β → γ) :
    ∀ (l : List β) (i : Nat), (l.eraseIdx i).map f = (l.map f).eraseIdx i
  | [], _ => by simp
  | _ :: _, 0 => by simp
  | b :: l, i + 1 => by
    simp [List.eraseIdx_cons_succ, map_eraseIdx f l i]

/-- in a strictly increasing list, removing the element at an index
removes every occurrence of that value -/
theorem ne_of_mem_eraseIdx :
    ∀ (l : List Nat) (i : Nat) (m : Nat),
      l.Pairwise (fun a b => a < b) → l[i]? = some m →
        ∀ x ∈ l.eraseIdx i, x ≠ m
  | [], i, m, _, h => by simp at h
  | a :: l, 0, m, hp, h => by
    simp only [List.getElem?_cons_zero, Option.some.injEq] at h
    subst h
    intro x hx
    simp only [List.eraseIdx_cons_zero] at hx
    have := (List.pairwise_cons.mp hp).1 x hx
    omega
  | a :: l, i + 1, m, hp, h => by
    simp only [List.getElem?_cons_succ] at h
    intro x hx
    simp only [List.eraseIdx_cons_succ, List.mem_cons] at hx
    rcases hx with rfl | hx
    · have hm : m ∈ l := List.getElem?_mem h
      have := (List.pairwise_cons.mp hp).1 m hm
      omega
    · exact ne_of_mem_eraseIdx l i m (List.pairwise_cons.mp hp).2 h x hx

/-- a strictly increasing list of marks below the counter holds at
most one mark passing the authoritativeness check -/
theorem countP_auth_le_one (ep : Nat) :
    ∀ l : List Nat, l.Pairwise (fun a b => a < b) → (∀ m ∈ l, m < ep) →
      ep < U32MOD → (l.countP fun m => (m + 1) % U32MOD == ep) ≤ 1
  | [], _, _, _ => by simp
  | m :: l, hp, hb, hep => by
    rw [List.countP_cons]
    by_cases hpm : ((m + 1) % U32MOD == ep) = true
    · have hm : m < ep := hb m (by simp)
      have hmod : (m + 1) % U32MOD = m + 1 := Nat.mod_eq_of_lt (by omega)
      have hepm : ep = m + 1 := by
        simp only [beq_iff_eq] at hpm
        omega
      have h0 : (l.countP fun m => (m + 1) % U32MOD == ep) = 0 := by
        rw [List.countP_eq_zero]
        intro x hx
        have hx1 : m < x := (List.pairwise_cons.mp hp).1 x hx
        have hx2 : x < ep := hb x (by simp [hx])
        simp only [beq_iff_eq]
        have : (x + 1) % U32MOD = x + 1 := Nat.mod_eq_of_lt (by omega)
        omega
      simp [hpm, h0]
    · have ih := countP_auth_le_one ep l (List.pairwise_cons.mp hp).2
        (fun x hx => hb x (by simp [hx])) hep
      simp only [hpm, if_neg]
      simpa using ih

/-- a single step of a read-free trace preserves the invariant; the
budget accounts for the borrow_mut it may consume -/
theorem invB_step (s : Sys α) (e : Ev) (b : Nat) (hne : e ≠ Ev.borrowE)
    (h : InvB s (b + mutCount [e])) : InvB (step s e) b := by
  obtain ⟨hpw, hlt, hbud⟩ := h
  cases e with
  | borrowE => exact absurd rfl hne
  | derefE i => exact ⟨hpw, hlt, by simpa [mutCount] using hbud⟩
  | borrowMutE =>
    have hbud1 : s.cell.epoch + (b + 1) < U32MOD := by
      simpa [mutCount] using hbud
    have hm : (s.cell.epoch + 1) % U32MOD = s.cell.epoch + 1 :=
      Nat.mod_eq_of_lt (by omega)
    refine ⟨?_, ?_, ?_⟩
    · show List.Pairwise _ (marks ⟨(s.cell.borrow_mut).2, _⟩)
      simp only [marks, step, List.map_append]
      rw [List.pairwise_append]
      refine ⟨hpw, by simp, ?_⟩
      intro a ha bb hb
      simp only [EpochCell.borrow_mut, List.map_cons, List.map_nil,
        List.mem_singleton] at hb
      subst hb
      exact hlt a ha
    · intro m hm2
      simp only [marks, step, List.map_append, List.mem_append,
        EpochCell.borrow_mut, List.map_cons, List.map_nil,
        List.mem_singleton] at hm2
      show m < (s.cell.borrow_mut).2.epoch
      simp only [EpochCell.borrow_mut, hm]
      rcases hm2 with hm2 | hm2
      · have := hlt m hm2
        omega
      · subst hm2; omega
    · show (s.cell.borrow_mut).2.epoch + b < U32MOD
      simp only [EpochCell.borrow_mut, hm]
      omega
  | dropE i =>
    have hbud0 : s.cell.epoch + b < U32MOD := by
      simpa [mutCount] using hbud
    show InvB (dropAt s i) b
    unfold dropAt
    cases hg : s.guards[i]? with
    | none => exact ⟨hpw, hlt, hbud0⟩
    | some gr =>
      have hcell : (if gr.isMut then RefMut.drop gr.guard s.cell
          else Ref.drop ⟨gr.guard⟩ s.cell) = RefMut.drop gr.guard s.cell := by
        cases gr.isMut <;> rfl
      have hmem : gr ∈ s.guards := List.getElem?_mem hg
      have hmark : gr.guard.mark ∈ marks s :=
        List.mem_map_of_mem (fun g => g.guard.mark) hmem
      have hmlt : gr.guard.mark < s.cell.epoch := hlt _ hmark
      have hmod : (gr.guard.mark + 1) % U32MOD = gr.guard.mark + 1 :=
        Nat.mod_eq_of_lt (by omega)
      have hmarkIdx : (marks s)[i]? = some gr.guard.mark := by
        simp [marks, List.getElem?_map, hg]
      have hmarks : ∀ c : EpochCell α,
          marks ⟨c, s.guards.eraseIdx i⟩ = (marks s).eraseIdx i := by
        intro c
        simp [marks, map_eraseIdx]
      have hsub : ∀ x ∈ (marks s).eraseIdx i, x ∈ marks s :=
        fun x hx => (List.eraseIdx_sublist (marks s) i).subset hx
      have hpw2 : List.Pairwise (fun a b => a < b) ((marks s).eraseIdx i) :=
        List.Pairwise.sublist (List.eraseIdx_sublist (marks s) i) hpw
    -- the two cases of the conditional rollback
      simp only [hcell]
      unfold RefMut.drop
      by_cases hfire : s.cell.epoch = (gr.guard.mark + 1) % U32MOD
      · rw [if_pos hfire]
        refine ⟨by rw [hmarks _]; exact hpw2, ?_, ?_⟩
        · intro m hm2
          rw [hmarks _] at hm2
          have h1 : m < s.cell.epoch := hlt m (hsub m hm2)
          have h2 : m ≠ gr.guard.mark := ne_of_mem_eraseIdx _ i _ hpw hmarkIdx m hm2
          show m < gr.guard.mark
          omega
        · show gr.guard.mark + b < U32MOD
          omega
      · rw [if_neg hfire]
        refine ⟨by rw [hmarks _]; exact hpw2, ?_, hbud0⟩
        intro m hm2
        rw [hmarks _] at hm2
        exact hlt m (hsub m hm2)

/-- the invariant propagates along every read-free trace whose
borrow_mut events fit in the initial budget -/
theorem invB_reach :
    ∀ (t : List Ev) (s : Sys α), noReadAccess t = true →
      InvB s (mutCount t) → InvB (reach s t) 0
  | [], _, _, h => h
  | e :: t, s, hnr, h => by
    have hinfo : e ≠ Ev.borrowE ∧ noReadAccess t = true := by
      constructor
      · intro he
        subst he
        simp [noReadAccess] at hnr
      · simp only [noReadAccess, List.all_cons, Bool.and_eq_true] at hnr
        exact hnr.2
    have hsplit : mutCount (e :: t) = mutCount t + mutCount [e] := by
      simp [mutCount, List.countP_cons]
    have hstep : InvB (step s e) (mutCount t) :=
      invB_step s e (mutCount t) hinfo.1 (by rw [← hsplit]; exact h)
    exact invB_reach t (step s e) hinfo.2 hstep

/-
Claim theorems.
-/

/-- C2, counterexample: the claim says no operation of a ReadGuard
ever changes the counter, but dropping the Ref obtained from borrow on
a fresh cell, after an intervening borrow_mut, runs the rollback of
the wrapped RefMut (counter 1 equals read mark 0 plus 1) and moves the
counter from 1 back to 0. -/
theorem read_guard_release_changes_counter :
    (Ref.drop ((EpochCell.new (0:Nat)).borrow)
        (((EpochCell.new (0:Nat)).borrow_mut).2)).epoch
      ≠ (((EpochCell.new (0:Nat)).borrow_mut).2).epoch := by
  decide

/-- C2, amended: borrow leaves the counter unchanged at creation and a
ReadGuard dereference never changes the counter; a ReadGuard release,
however, runs the release of the wrapped mutable guard: it rolls the
counter back to the mark of the guard exactly when the counter equals
mark + 1 at release time, and leaves the cell unchanged otherwise. -/
theorem read_guard_counter_effects (r : Ref) (s : EpochCell α) (sys : Sys α) :
    (step sys Ev.borrowE).cell = sys.cell ∧
    (Ref.deref r s).2 = s ∧
    Ref.drop r s =
      (if s.epoch = (r.toRefMut.mark + 1) % U32MOD
        then ⟨r.toRefMut.mark, s.val⟩ else s) := by
  refine ⟨rfl, ?_, rfl⟩
  simp only [Ref.deref, RefMut.deref]
  split
  · split <;> rfl
  · rfl

/-- C3: after guards A then B are taken from the same cell (B while A
is live and unreleased), the states of the window between the creation
of B and its release keep the counter of the post-B state and differ
only in the payload, since a dereference never writes the cell and a
write through B keeps the counter; at each such state every deref or
deref_mut of A fails with the stale-borrow error, and every deref of B
succeeds with the payload while deref_mut of B succeeds and writes. -/
theorem second_guard_supersedes_first (s0 : EpochCell α) (u : α) (f : α → α) :
    (RefMut.deref (s0.borrow_mut).1
        ⟨(((s0.borrow_mut).2.borrow_mut).2).epoch, u⟩).1
      = Except.error EcError.staleBorrow ∧
    (RefMut.deref_mut (s0.borrow_mut).1 f
        ⟨(((s0.borrow_mut).2.borrow_mut).2).epoch, u⟩).1
      = Except.error EcError.staleMutBorrow ∧
    (RefMut.deref ((s0.borrow_mut).2.borrow_mut).1
        ⟨(((s0.borrow_mut).2.borrow_mut).2).epoch, u⟩).1
      = Except.ok u ∧
    RefMut.deref_mut ((s0.borrow_mut).2.borrow_mut).1 f
        ⟨(((s0.borrow_mut).2.borrow_mut).2).epoch, u⟩
      = (Except.ok (), ⟨(((s0.borrow_mut).2.borrow_mut).2).epoch, f u⟩) := by
  have hA : (s0.epoch + 1 + 1) % U32MOD ≠ (s0.epoch + 1) % U32MOD := by
    rw [← Nat.mod_add_mod]
    exact succ_mod_ne ((s0.epoch + 1) % U32MOD)
  refine ⟨?_, ?_, ?_, ?_⟩ <;>
    simp [EpochCell.borrow_mut, RefMut.deref, RefMut.deref_mut, hA]

/-- C5: release of a mutable guard rolls the counter back to the mark
of the guard exactly when the counter equals mark + 1 and leaves the
cell untouched otherwise, signalling nothing either way (the operation
is total with no error outcome); stated below the u32 wrap point of
the mark, the single place the spec leaves undefined. -/
theorem release_is_conditional_rollback (g : RefMut) (s : EpochCell α)
    (h : g.mark + 1 < U32MOD) :
    RefMut.drop g s = if s.epoch = g.mark + 1 then ⟨g.mark, s.val⟩ else s := by
  simp [RefMut.drop, Nat.mod_eq_of_lt h]

/-- C5 witness: a topmost guard with mark 3 released at counter 4
rolls the counter back to 3. -/
theorem release_is_conditional_rollback_witness :
    (3:Nat) + 1 < U32MOD ∧
      RefMut.drop ⟨3, false⟩ (⟨4, 10⟩ : EpochCell Nat) = ⟨3, 10⟩ := by
  refine ⟨by norm_num [U32MOD], ?_⟩
  rw [release_is_conditional_rollback ⟨3, false⟩ (⟨4, 10⟩ : EpochCell Nat)
    (by norm_num [U32MOD])]
  norm_num

/-- C6: dereferencing a ReadGuard is exactly the dereference of the
wrapped mutable guard, so it applies the same counter == mark + 1
check; at any state whose counter still equals the mark of the guard
(in particular right after creation) the dereference fails with the
stale-borrow error, and it succeeds with the payload exactly when the
counter is one greater than the mark at the moment of dereference. -/
theorem read_guard_deref_check (s s2 : EpochCell α)
    (h : s.epoch + 1 < U32MOD) :
    Ref.deref (s.borrow) s2 = RefMut.deref (s.borrow).toRefMut s2 ∧
    (Ref.deref (s.borrow) s).1 = Except.error EcError.staleBorrow ∧
    ((Ref.deref (s.borrow) s2).1 = Except.ok s2.val ↔
      s2.epoch = s.epoch + 1) := by
  have hne : s.epoch ≠ (s.epoch + 1) % U32MOD := (succ_mod_ne s.epoch).symm
  refine ⟨rfl, ?_, ?_⟩
  · simp [Ref.deref, RefMut.deref, EpochCell.borrow, hne]
  · simp only [Ref.deref, RefMut.deref, EpochCell.borrow,
      Nat.mod_eq_of_lt h]
    split
    · simp_all
    · simp_all

/-- C6 witness: a read guard taken at counter 0 dereferenced at
counter 1 succeeds with the payload of that state. -/
theorem read_guard_deref_check_witness :
    (EpochCell.new (7:Nat)).epoch + 1 < U32MOD ∧
    (Ref.deref ((EpochCell.new (7:Nat)).borrow)
        (⟨1, 42⟩ : EpochCell Nat)).1 = Except.ok 42 := by
  refine ⟨by norm_num [U32MOD, EpochCell.new], ?_⟩
  exact (read_guard_deref_check (EpochCell.new (7:Nat))
      (⟨1, 42⟩ : EpochCell Nat)
      (by norm_num [U32MOD, EpochCell.new])).2.2.mpr
    (by norm_num [EpochCell.new])

/-- C7: on a fresh cell, guard A is created and abandoned, then guard
B is created with mark 1 while the counter moves to 2; a write of w
through B succeeds, B keeps dereferencing to w while live, the release
of B fires (counter 2 equals mark 1 plus 1) and leaves the counter at
1, and teardown of the cell yields exactly the payload B wrote. -/
theorem abandoned_guard_does_not_corrupt (v w : α) :
    ((((EpochCell.new v).borrow_mut).2).borrow_mut).1.mark = 1 ∧
    (((((EpochCell.new v).borrow_mut).2).borrow_mut).2).epoch = 2 ∧
    RefMut.deref_mut ((((EpochCell.new v).borrow_mut).2).borrow_mut).1
        (fun _ => w) (((((EpochCell.new v).borrow_mut).2).borrow_mut).2)
      = (Except.ok (), ⟨2, w⟩) ∧
    (RefMut.deref ((((EpochCell.new v).borrow_mut).2).borrow_mut).1
        ⟨2, w⟩).1 = Except.ok w ∧
    RefMut.drop ((((EpochCell.new v).borrow_mut).2).borrow_mut).1 ⟨2, w⟩
      = ⟨1, w⟩ ∧
    EpochCell.into_inner (⟨1, w⟩ : EpochCell α) = w := by
  refine ⟨?_, ?_, ?_, ?_, ?_, rfl⟩ <;>
    norm_num [EpochCell.new, EpochCell.borrow_mut, RefMut.deref,
      RefMut.deref_mut, RefMut.drop, U32MOD]

/-- C8: borrow_mut always succeeds (it is a total operation): it
stamps the returned guard with the pre-bump counter and a non-null
location, keeps the payload, and writes back the counter plus one
reduced modulo 2 ^ 32; below the wrap point, which is where the spec
defines behaviour, the counter advances by exactly 1. -/
theorem mutable_access_always_advances (s : EpochCell α) :
    ((s.borrow_mut).1).mark = s.epoch ∧
    ((s.borrow_mut).1).ptrIsNull = false ∧
    ((s.borrow_mut).2).val = s.val ∧
    ((s.borrow_mut).2).epoch = (s.epoch + 1) % U32MOD ∧
    (s.epoch + 1 < U32MOD → ((s.borrow_mut).2).epoch = s.epoch + 1) := by
  refine ⟨rfl, rfl, rfl, rfl, fun h => ?_⟩
  simp [EpochCell.borrow_mut, Nat.mod_eq_of_lt h]

/-- C8 witness: on a fresh cell the counter advances from 0 to 1. -/
theorem mutable_access_always_advances_witness :
    (EpochCell.new (3:Nat)).epoch + 1 < U32MOD ∧
    (((EpochCell.new (3:Nat)).borrow_mut).2).epoch
      = (EpochCell.new (3:Nat)).epoch + 1 :=
  ⟨by norm_num [U32MOD, EpochCell.new],
   (mutable_access_always_advances (EpochCell.new (3:Nat))).2.2.2.2
     (by norm_num [U32MOD, EpochCell.new])⟩

/-- C9: every guard obtained from borrow or borrow_mut on a correctly
constructed cell carries a non-null location, so no dereference of
such a guard can ever fail with the null-location error; in
particular, on a cell wrapping the zero-size payload, guard creation,
dereference and release all complete without that error. -/
theorem null_check_never_triggers (s s2 s3 : EpochCell α) (f : α → α) :
    ((s.borrow_mut).1).ptrIsNull = false ∧
    ((s.borrow).toRefMut).ptrIsNull = false ∧
    (RefMut.deref (s.borrow_mut).1 s2).1 ≠ Except.error EcError.nullLocation ∧
    (RefMut.deref_mut (s.borrow_mut).1 f s2).1
      ≠ Except.error EcError.nullLocation ∧
    (Ref.deref (s.borrow) s3).1 ≠ Except.error EcError.nullLocation ∧
    (RefMut.deref (((EpochCell.new ()).borrow_mut).1)
        (((EpochCell.new ()).borrow_mut).2)).1 = Except.ok () ∧
    RefMut.drop (((EpochCell.new ()).borrow_mut).1)
        (((EpochCell.new ()).borrow_mut).2) = EpochCell.new () ∧
    (((RefMut.drop (((EpochCell.new ()).borrow_mut).1)
        (((EpochCell.new ()).borrow_mut).2)).borrow).toRefMut).ptrIsNull
      = false := by
  refine ⟨rfl, rfl, ?_, ?_, ?_, by decide, by decide, by decide⟩ <;>
    · simp only [RefMut.deref, RefMut.deref_mut, Ref.deref,
        EpochCell.borrow_mut, EpochCell.borrow]
      split <;> simp

/-- C10: a dereference of a mutable or read guard returns the cell
unchanged (the check is a pure read of the counter); a deref_mut never
changes the counter even when it writes the payload; and when the
check of deref_mut fails the cell is returned entirely unchanged. -/
theorem deref_is_counter_pure (g : RefMut) (r : Ref) (f : α → α)
    (s : EpochCell α) :
    (RefMut.deref g s).2 = s ∧
    (Ref.deref r s).2 = s ∧
    (RefMut.deref_mut g f s).2.epoch = s.epoch ∧
    ((RefMut.deref_mut g f s).1 ≠ Except.ok () →
      (RefMut.deref_mut g f s).2 = s) := by
  refine ⟨?_, ?_, ?_, ?_⟩ <;>
    · simp only [RefMut.deref, Ref.deref, RefMut.deref_mut]
      split <;> (try split) <;> simp

/-- C1, counterexample: the claim says at most one live guard of any
kind can satisfy mark + 1 == counter; but after borrow followed by
borrow_mut on a fresh cell both live guards carry mark 0 while the
counter is 1, so both pass the authoritativeness check and both
dereferences succeed at the same instant. -/
theorem two_guards_validate_together :
    ¬ AuthCount (reach (init (0:Nat)) [Ev.borrowE, Ev.borrowMutE]) ≤ 1 := by
  decide

/-- C1, amended: over every interleaving of construct, borrow_mut,
guard dereference and guard release that performs no
request_read_access and fewer borrow_mut calls than the u32 modulus,
every reachable state has at most one live guard passing the
mark + 1 == counter check, so no two guards can both validate a
dereference at the same instant. -/
theorem at_most_one_guard_validates (v : α) (t : List Ev)
    (hnr : noReadAccess t = true) (hmc : mutCount t < U32MOD) :
    AuthCount (reach (init v) t) ≤ 1 := by
  have h0 : InvB (init v) (mutCount t) := by
    refine ⟨by simp [marks, init], by simp [marks, init], ?_⟩
    simpa [init, EpochCell.new] using hmc
  have hinv := invB_reach t (init v) hnr h0
  have hbr : AuthCount (reach (init v) t)
      = ((marks (reach (init v) t)).countP
          fun m => (m + 1) % U32MOD == (reach (init v) t).cell.epoch) := by
    simp [AuthCount, marks, List.countP_map]
    rfl
  rw [hbr]
  exact countP_auth_le_one _ _ hinv.1 hinv.2.1 (by have := hinv.2.2; omega)

/-- C1 witness: a read-free trace of two borrow_mut calls and a
release of the second guard reaches a state with at most one
authoritative live guard. -/
theorem at_most_one_guard_validates_witness :
    noReadAccess [Ev.borrowMutE, Ev.borrowMutE, Ev.dropE 1, Ev.derefE 0]
        = true ∧
    mutCount [Ev.borrowMutE, Ev.borrowMutE, Ev.dropE 1, Ev.derefE 0]
        < U32MOD ∧
    AuthCount (reach (init (0:Nat))
        [Ev.borrowMutE, Ev.borrowMutE, Ev.dropE 1, Ev.derefE 0]) ≤ 1 :=
  ⟨by decide, by decide,
   at_most_one_guard_validates 0
     [Ev.borrowMutE, Ev.borrowMutE, Ev.dropE 1, Ev.derefE 0]
     (by decide) (by decide)⟩

/-- the LIFO scenario computed from any starting state whose counter
has room for the remaining nesting depth: the run succeeds, restores
the counter, and adds the depth to the payload -/
theorem lifoRun_ok :
    ∀ (n : Nat) (s : EpochCell Nat), s.epoch + n < U32MOD →
      lifoRun n s = Except.ok ⟨s.epoch, s.val + n⟩
  | 0, s, _ => by simp [lifoRun]
  | n + 1, s, h => by
    have h1 : (s.epoch + 1) % U32MOD = s.epoch + 1 :=
      Nat.mod_eq_of_lt (by omega)
    have ih := lifoRun_ok n ⟨s.epoch + 1, s.val⟩ (by simp; omega)
    simp only [lifoRun, EpochCell.borrow_mut, h1]
    rw [ih]
    simp only [RefMut.deref, RefMut.deref_mut, RefMut.drop, h1]
    norm_num
    omega

/-- C4: for every nesting depth below the u32 modulus, the LIFO
round-trip of that many borrow_mut guards on a fresh cell, each guard
dereferencing, incrementing the payload through deref_mut and being
released in exact reverse creation order, has every check succeed, and
it ends with counter 0 and payload initial + depth. -/
theorem lifo_round_trip (v n : Nat) (h : n < U32MOD) :
    lifoRun n (EpochCell.new v) = Except.ok ⟨0, v + n⟩ := by
  have := lifoRun_ok n (EpochCell.new v) (by simp [EpochCell.new]; omega)
  simpa [EpochCell.new] using this

/-- C4 witness: four nested guards on a fresh cell holding 5 end with
counter 0 and payload 9. -/
theorem lifo_round_trip_witness :
    4 < U32MOD ∧ lifoRun 4 (EpochCell.new 5) = Except.ok ⟨0, 5 + 4⟩ :=
  ⟨by norm_num [U32MOD], lifo_round_trip 5 4 (by norm_num [U32MOD])⟩

/-- C10 witness: a stale deref_mut (mark 5 against counter 0) fails
and leaves the cell exactly as it was. -/
theorem deref_is_counter_pure_witness :
    (RefMut.deref_mut (⟨5, false⟩ : RefMut) (fun x => x + 1)
        (⟨0, 3⟩ : EpochCell Nat)).1 ≠ Except.ok () ∧
    (RefMut.deref_mut (⟨5, false⟩ : RefMut) (fun x => x + 1)
        (⟨0, 3⟩ : EpochCell Nat)).2 = ⟨0, 3⟩ :=
  ⟨by decide,
   (deref_is_counter_pure ⟨5, false⟩ ⟨⟨0, false⟩⟩ (fun x => x + 1)
       ⟨0, 3⟩).2.2.2 (by decide)⟩

end Epoch
